import Mathlib

/-! # chi-ratelimit: a shallow embedding

The Go sources embedded here:

* `types/ratelimit.go`: the `Ratelimit` record, `NewRatelimit`, `Copy`,
  `Expired`, `Exceeded`;
* `providers/provider.go`: the `Provider` interface;
* `providers/inmemory/inmemory.go`: the map-backed provider (`NewProvider`,
  `Reset`, `Put`, `Get`);
* `ratelimiter.go`: `Options` and its overrides, `NewRatelimiter`,
  `Ratelimiter.Middleware`, `realIP`.

Conventions of the embedding.

* A `time.Time` is the integer number of nanoseconds since the Unix epoch
  (what `UnixNano` returns, for the dates whose nanosecond count fits an
  `int64`, the years 1678 to 2262); a `time.Duration` is an integer number of
  nanoseconds. `time.Now()` is an explicit argument: each reading a handler
  run takes is a field of `Clock`.
* `int32` and `int` values are integers; a conversion or an arithmetic
  operation that can leave the range is wrapped explicitly (`wrapInt32`).
* A `*types.Ratelimit` is `Ptr`: `none` is the nil pointer, `some a` the
  address `a` of an object in a `Heap`. Go code mutates through pointers
  (`Copy` writes to its receiver), so the heap is threaded explicitly.
* The Go map `map[string]*types.Ratelimit` is a function from keys to
  `Option Ptr`: `none` when the key is absent, `some p` when the key is present
  with the pointer `p` (which may itself be nil).
* A handler run is recorded as the list of the effects it performs on the
  response, in order, together with the panic that ended it, if any.
-/

namespace ChiRatelimit

/-! ## Machine integers and time -/

/-- The value of a Go `int32` conversion (and of `int32` arithmetic): the
representative of `x` modulo `2^32` in `[-2^31, 2^31)`. -/
def wrapInt32 (x : Int) : Int :=
  (x + 2147483648) % 4294967296 - 2147483648

/-- Membership in the range of `int32`. -/
def isInt32 (x : Int) : Prop :=
  -2147483648 ≤ x ∧ x ≤ 2147483647

instance (x : Int) : Decidable (isInt32 x) := by
  unfold isInt32; infer_instance

/-- A `time.Time`, as nanoseconds since the Unix epoch. -/
abbrev Time := Int

/-- A `time.Duration`, in nanoseconds. -/
abbrev Duration := Int

/-- The `time.Hour` constant. -/
def Hour : Duration := 3600000000000

/-- The method `Time.Unix`: whole seconds since the epoch, rounded down. -/
def Time.Unix (t : Time) : Int :=
  t / 1000000000

/-- The method `Time.Sub`: the duration `t - u`, saturated to the range of
`int64` as the Go library documents. -/
def Time.Sub (t u : Time) : Duration :=
  max (-9223372036854775808) (min 9223372036854775807 (t - u))

/-- The method `Duration.Milliseconds`: `int64(d) / 1e6`, Go's integer
division, which truncates toward zero. -/
def Duration.Milliseconds (d : Duration) : Int :=
  Int.tdiv d 1000000

/-- The functions `strconv.FormatInt(x, 10)` and `strconv.Itoa(x)`: the decimal
numeral of `x`, with a leading minus sign when `x` is negative. -/
def FormatInt (x : Int) : String :=
  toString x

/-! ## The heap of `Ratelimit` objects -/

/-- The `Ratelimit` struct of `types/ratelimit.go`. -/
structure Ratelimit where
  /-- When this ratelimit is reset. -/
  ResetTime : Time
  /-- How many requests are left (`int32`). -/
  Remaining : Int
  /-- Whether this is from a global route. -/
  Global : Bool
  /-- The limit of requests (`int32`). -/
  Limit : Int
  deriving DecidableEq, Repr

/-- A `*types.Ratelimit`: `none` is nil, `some a` points to heap cell `a`. -/
abbrev Ptr := Option Nat

/-- The objects of type `Ratelimit` allocated so far: `cells a` is the
content of the object at address `a`, and `next` the first free address. -/
structure Heap where
  cells : Nat → Ratelimit
  next : Nat

/-- The heap with nothing allocated. -/
def Heap.empty : Heap :=
  { cells := fun _ => { ResetTime := 0, Remaining := 0, Global := false, Limit := 0 }
    next := 0 }

/-- Read through a non-nil pointer. -/
def Heap.load (h : Heap) (a : Nat) : Ratelimit :=
  h.cells a

/-- Write through a non-nil pointer. -/
def Heap.store (h : Heap) (a : Nat) (v : Ratelimit) : Heap :=
  { h with cells := fun b => if b = a then v else h.cells b }

/-- Allocation of a new object (`&Ratelimit{...}`). -/
def Heap.alloc (h : Heap) (v : Ratelimit) : Nat × Heap :=
  (h.next, { cells := fun b => if b = h.next then v else h.cells b, next := h.next + 1 })

/-! ## `types/ratelimit.go` -/

/-- The struct literal of `NewRatelimit`: `Remaining` and `Limit` are both
`limit`. -/
def Ratelimit.new (limit : Int) (global : Bool) (resetTime : Time) : Ratelimit :=
  { ResetTime := resetTime, Remaining := limit, Global := global, Limit := limit }

/-- The function `NewRatelimit(limit, global, resetTime)`: allocates the struct and
returns a pointer to it. -/
def NewRatelimit (h : Heap) (limit : Int) (global : Bool) (resetTime : Time) : Nat × Heap :=
  h.alloc (Ratelimit.new limit global resetTime)

/-- The content that `Copy` leaves in its receiver: `Remaining - 1` when
`Remaining > 0`, else `0`; no other field is assigned. -/
def Ratelimit.Copy (r : Ratelimit) : Ratelimit :=
  { r with Remaining := if r.Remaining > 0 then wrapInt32 (r.Remaining - 1) else 0 }

/-- The method `(*Ratelimit).Copy` on a non-nil receiver: `this := r` copies the
pointer, not the struct, so the assignment to `this.Remaining` writes to the
receiver itself and the pointer returned is the receiver. -/
def Copy (h : Heap) (r : Nat) : Nat × Heap :=
  let this := r
  (this, h.store this (h.load r).Copy)

/-- The method `(*Ratelimit).Expired`, with `now` the reading of `time.Now()`:
`r.ResetTime.UnixNano() >= time.Now().UnixNano()`. -/
def Ratelimit.Expired (r : Ratelimit) (now : Time) : Bool :=
  decide (r.ResetTime ≥ now)

/-- The method `(*Ratelimit).Exceeded`: `!r.Expired() && r.Remaining == 0`. -/
def Ratelimit.Exceeded (r : Ratelimit) (now : Time) : Bool :=
  !r.Expired now && r.Remaining == 0

/-! ## `providers/provider.go` -/

/-- A Go `error` value: `none` is nil, `some msg` an error with that message. -/
abbrev Error := Option String

/-- The interface `providers.Provider`, for an implementation whose own state
has type `σ`. Every method may read and write the objects its pointers
designate, so each takes and returns the heap. -/
structure ProviderImpl (σ : Type) where
  Reset : Heap → σ → String → (Bool × Error) × Heap × σ
  Close : Heap → σ → Error × Heap × σ
  Name : String
  Put : Heap → σ → String → Ptr → Error × Heap × σ
  Get : Heap → σ → String → (Ptr × Error) × Heap × σ

/-! ## `providers/inmemory/inmemory.go` -/

/-- The struct `inmemory.Provider`: its one field is the Go map
`map[string]*types.Ratelimit`. -/
structure Provider where
  data : String → Option Ptr

/-- The function `NewProvider()`: the provider over an empty map. -/
def NewProvider : Provider :=
  { data := fun _ => none }

/-- The map after the assignment `data[key] = value`. -/
def Provider.assign (p : Provider) (key : String) (value : Ptr) : Provider :=
  { data := fun k => if k = key then some value else p.data k }

/-- The map after `delete(data, key)`. -/
def Provider.delete (p : Provider) (key : String) : Provider :=
  { data := fun k => if k = key then none else p.data k }

/-- The search loop shared by `Reset` and `Get`:
`for k, val := range p.data { if key == k { ratelimit = val; break } }`
starting from `ratelimit = nil`. Keys of a map are distinct, so the loop
leaves the value stored under `key`, or nil when the key is absent. -/
def Provider.find (p : Provider) (key : String) : Ptr :=
  match p.data key with
  | some val => val
  | none => none

/-- The method `(*Provider).Reset`: returns `(false, nil)` when the search leaves nil,
else deletes the key and returns `(true, nil)`. -/
def Provider.Reset (p : Provider) (key : String) : (Bool × Error) × Provider :=
  match p.find key with
  | none => ((false, none), p)
  | some _ => ((true, none), p.delete key)

/-- The method `(*Provider).Put`: the loop returns the error as soon as it meets `key`
among the keys of the map; otherwise `p.data[key] = value` and nil. -/
def Provider.Put (p : Provider) (key : String) (value : Ptr) : Error × Provider :=
  match p.data key with
  | some _ => (some ("ratelimit with key " ++ key ++ " already exists"), p)
  | none => (none, p.assign key value)

/-- The method `(*Provider).Get`: returns `(nil, nil)` when the search leaves nil; else
calls `Copy` on the pointer found, stores the returned pointer under `key`
and returns it. -/
def Provider.Get (h : Heap) (p : Provider) (key : String) : (Ptr × Error) × Heap × Provider :=
  match p.find key with
  | none => ((none, none), h, p)
  | some ratelimit =>
    let (copied, h1) := Copy h ratelimit
    ((some copied, none), h1, p.assign key (some copied))

/-- The in-memory provider as an implementation of the interface. -/
def inmemory : ProviderImpl Provider :=
  { Reset := fun h p key => let (r, p1) := p.Reset key; (r, h, p1)
    Close := fun h p => (none, h, p)
    Name := "in-memory provider"
    Put := fun h p key value => let (e, p1) := p.Put key value; (e, h, p1)
    Get := fun h p key => p.Get h key }

/-! ## `ratelimiter.go` -/

/-- What the handler needs of an `*http.Request`: `Header k` is
`req.Header.Get(k)` (the empty string when the header is absent) and
`RemoteAddr` the peer address. -/
structure Request where
  Header : String → String
  RemoteAddr : String

/-- One effect of a handler run on the response. -/
inductive Effect where
  /-- The call `headers.Set(name, value)`. -/
  | setHeader (name value : String)
  /-- The call `r.onRatelimit(w, req)`. -/
  | onRatelimit
  /-- The call `next.ServeHTTP(w, req)`. -/
  | next
  deriving DecidableEq, Repr

/-- The ways a handler run panics. -/
inductive Panic where
  /-- A field read through a nil `*Ratelimit`. -/
  | nilDereference
  /-- The statement `panic(err)`. -/
  | error (err : String)
  deriving DecidableEq, Repr

/-- A handler run: its effects in order, and the panic that ended it, if
any. -/
structure Outcome where
  effects : List Effect
  panic : Option Panic
  deriving DecidableEq, Repr

/-- The struct `Ratelimiter`. The hook `onRatelimit` is recorded as an effect;
`provider` is the implementation, whose state is passed separately. -/
structure Ratelimiter (σ : Type) where
  checkIfGlobalFunc : Request → Bool
  keyFunc : Request → String
  defaultTimeWindow : Duration
  defaultLimit : Int
  provider : ProviderImpl σ

/-- The readings of `time.Now()` a handler run may take, in program order. -/
structure Clock where
  /-- In the argument of `NewRatelimit` (line 183). -/
  atCreate : Time
  /-- Inside `rl.Exceeded()` (line 194). -/
  atExceeded : Time
  /-- In the computation of `Retry-After` (line 195). -/
  atRetry : Time

/-- Lines 174-187 of `Middleware`: the lookup, and what follows when the
pointer found is not nil. Returns `isGlobal`, the final `rl`, and `err`. -/
def Ratelimiter.lookup {σ : Type} (r : Ratelimiter σ) (clock : Clock) (h : Heap) (s : σ)
    (req : Request) : (Bool × Ptr × Error) × Heap × σ :=
  let isGlobal := r.checkIfGlobalFunc req
  let key := r.keyFunc req
  let ((rl, err), h1, s1) := r.provider.Get h s key
  match rl with
  | some _ =>
    let (fresh, h2) :=
      NewRatelimit h1 (wrapInt32 r.defaultLimit) isGlobal (clock.atCreate + r.defaultTimeWindow)
    let (_, h3, s3) := r.provider.Put h2 s1 key (some fresh)
    ((isGlobal, some fresh, err), h3, s3)
  | none => ((isGlobal, none, err), h1, s1)

/-- Lines 189-214 of `Middleware`: `panic(err)` on an error; `rl.Exceeded()`,
which reads `rl.ResetTime` first and so panics on a nil `rl`; then the denial
branch or the four headers and the next handler. -/
def Ratelimiter.respond (clock : Clock) (h : Heap) (isGlobal : Bool) (rl : Ptr)
    (err : Error) : Outcome :=
  match err with
  | some e => { effects := [], panic := some (Panic.error e) }
  | none =>
    match rl with
    | none => { effects := [], panic := some Panic.nilDereference }
    | some a =>
      let v := h.load a
      if v.Exceeded clock.atExceeded then
        let retry := FormatInt (Duration.Milliseconds (Time.Sub clock.atRetry v.ResetTime))
        { effects := [Effect.setHeader "Retry-After" retry, Effect.onRatelimit], panic := none }
      else
        let isGlobalString := if isGlobal then "true" else "false"
        { effects :=
            [ Effect.setHeader "X-RateLimit-Remaining" (FormatInt v.Remaining),
              Effect.setHeader "X-RateLimit-Global" isGlobalString,
              Effect.setHeader "X-RateLimit-Reset" (FormatInt (Time.Unix v.ResetTime * 1000)),
              Effect.setHeader "X-RateLimit-Limit" (FormatInt v.Limit),
              Effect.next ],
          panic := none }

/-- The handler that `(*Ratelimiter).Middleware(next)` returns, run on one
request: the outcome, and the heap and provider state it leaves. -/
def Ratelimiter.Middleware {σ : Type} (r : Ratelimiter σ) (clock : Clock) (h : Heap) (s : σ)
    (req : Request) : Outcome × Heap × σ :=
  let ((isGlobal, rl, err), h1, s1) := r.lookup clock h s req
  (Ratelimiter.respond clock h1 isGlobal rl err, h1, s1)

/-- The ratelimiter that `NewRatelimiter` builds over the in-memory provider
(the default provider) from a limit and a window, with the key and the global
flag computed by the given functions. -/
def Ratelimiter.inMemory (limit : Int) (window : Duration) (keyFunc : Request → String)
    (checkIfGlobalFunc : Request → Bool) : Ratelimiter Provider :=
  { checkIfGlobalFunc := checkIfGlobalFunc
    keyFunc := keyFunc
    defaultTimeWindow := window
    defaultLimit := limit
    provider := inmemory }

/-- A request with no headers from the given peer address. -/
def Request.plain (remoteAddr : String) : Request :=
  { Header := fun _ => "", RemoteAddr := remoteAddr }

/-- An example state: the key "k" holds a pointer to a state with no request
left, limit 3 and reset time 500. -/
def exhaustedState : Heap × Provider :=
  ((Heap.empty.alloc { ResetTime := 500, Remaining := 0, Global := true, Limit := 3 }).2,
    (NewProvider.Put "k" (some 0)).2)

/-- An example ratelimiter over the in-memory provider: the given limit, a
window of 10 nanoseconds, every request keyed "k" and global. -/
def limiterK (limit : Int) : Ratelimiter Provider :=
  Ratelimiter.inMemory limit 10 (fun _ => "k") (fun _ => true)

/-- The handler run on a list of requests in turn, each with its own clock
readings: the outcomes in order, and the final heap and provider state. A
panic ends one run only (`net/http` recovers it), so the next request is
served on the state the panicking run left. -/
def Ratelimiter.serve {σ : Type} (r : Ratelimiter σ) (h : Heap) (s : σ) :
    List (Clock × Request) → List Outcome × Heap × σ
  | [] => ([], h, s)
  | (clock, req) :: rest =>
    let (o, h1, s1) := r.Middleware clock h s req
    let (os, h2, s2) := r.serve h1 s1 rest
    (o :: os, h2, s2)

/-- The provider state after `n` consecutive calls of `Get(key)`, with the
result of the last of them (`(nil, nil)` when `n = 0` and no call is made). -/
def Provider.GetTimes (key : String) : Nat → Heap → Provider → (Ptr × Error) × Heap × Provider
  | 0, h, p => ((none, none), h, p)
  | n + 1, h, p =>
    let (_, h1, p1) := Provider.GetTimes key n h p
    p1.Get h1 key

/-- The call `strings.Index(s, substr)` on the characters of `s` from
position `i` on: the position of the first occurrence of `substr`, or -1 when
there is none. -/
def stringsIndexFrom (substr : List Char) : List Char → Nat → Int
  | [], i => if substr.isEmpty then (i : Int) else -1
  | c :: cs, i =>
    if substr.isPrefixOf (c :: cs) then (i : Int) else stringsIndexFrom substr cs (i + 1)

/-- The call `strings.Index(s, substr)`. Positions are counted in characters
here and in bytes in Go; `realIP` uses the position only to slice the same
string, and the separator it looks for is ASCII, so the slice is the same. -/
def stringsIndex (s substr : String) : Int :=
  stringsIndexFrom substr.data s.data 0

/-- The function `realIP`. The library function `net.SplitHostPort` is the
parameter `splitHostPort`: `some (host, port)` when it returns a nil error,
`none` when it returns an error. -/
def realIP (splitHostPort : String → Option (String × String)) (req : Request) : String :=
  let tcip := req.Header "True-Client-IP"
  if tcip ≠ "" then tcip
  else
    let xrip := req.Header "X-Real-IP"
    if xrip ≠ "" then xrip
    else
      let xff := req.Header "X-Forwarded-For"
      if xff ≠ "" then
        let idx := stringsIndex xff ", "
        let idx := if idx = -1 then (xff.data.length : Int) else idx
        String.mk (xff.data.take idx.toNat)
      else
        match splitHostPort req.RemoteAddr with
        | some (ip, _) => ip
        | none => req.RemoteAddr

/-- The struct `Options`, over a provider whose state has type `σ`. The field
`OnRatelimit` is left out: the hook is recorded as the effect
`Effect.onRatelimit` when the handler calls it. -/
structure Options (σ : Type) where
  CheckIfGlobalFunc : Request → Bool
  KeyFunc : Request → String
  DefaultTimeWindow : Duration
  DefaultLimit : Int
  Provider : ProviderImpl σ

/-- The type `OptionsOverrideFunc`, a `func(o *Options)`: the options after the
call, from the options before it. -/
abbrev OptionsOverrideFunc (σ : Type) := Options σ → Options σ

/-- The override `WithCheckIfGlobalFunc(fun)`. -/
def WithCheckIfGlobalFunc {σ : Type} (f : Request → Bool) : OptionsOverrideFunc σ :=
  fun o => { o with CheckIfGlobalFunc := f }

/-- The override `WithDefaultTimeWindow(t)`. -/
def WithDefaultTimeWindow {σ : Type} (t : Duration) : OptionsOverrideFunc σ :=
  fun o => { o with DefaultTimeWindow := t }

/-- The override `WithDefaultLimit(limit)`. -/
def WithDefaultLimit {σ : Type} (limit : Int) : OptionsOverrideFunc σ :=
  fun o => { o with DefaultLimit := limit }

/-- The override `WithProvider(provider)`. -/
def WithProvider {σ : Type} (provider : ProviderImpl σ) : OptionsOverrideFunc σ :=
  fun o => { o with Provider := provider }

/-- The override `WithKeyFunc(fun)`. -/
def WithKeyFunc {σ : Type} (f : Request → String) : OptionsOverrideFunc σ :=
  fun o => { o with KeyFunc := f }

/-- The function `defaultOptions()`: one hour, limit 100, the in-memory
provider, every request global, keys computed by `realIP`. -/
def defaultOptions (splitHostPort : String → Option (String × String)) : Options Provider :=
  { DefaultTimeWindow := 1 * Hour
    DefaultLimit := 100
    Provider := inmemory
    CheckIfGlobalFunc := fun _ => true
    KeyFunc := fun req => realIP splitHostPort req }

/-- The options after the loop `for _, override := range opts { override(options) }`. -/
def applyOverrides {σ : Type} (options : Options σ) (opts : List (OptionsOverrideFunc σ)) :
    Options σ :=
  opts.foldl (fun o override => override o) options

/-- The function `NewRatelimiter(opts...)`: the overrides applied in order to
the default options, and every field copied into the `Ratelimiter`. -/
def NewRatelimiter (splitHostPort : String → Option (String × String))
    (opts : List (OptionsOverrideFunc Provider)) : Ratelimiter Provider :=
  let options := applyOverrides (defaultOptions splitHostPort) opts
  { checkIfGlobalFunc := options.CheckIfGlobalFunc
    defaultTimeWindow := options.DefaultTimeWindow
    defaultLimit := options.DefaultLimit
    keyFunc := options.KeyFunc
    provider := options.Provider }

/-- The heap after `n` consecutive calls of `Copy`, each on the pointer the
call before it returned, starting from `r`; and the last pointer returned. -/
def CopyTimes : Nat → Heap → Nat → Nat × Heap
  | 0, h, r => (r, h)
  | n + 1, h, r => Copy (CopyTimes n h r).2 (CopyTimes n h r).1

/-- The claims' reading of "the reset time in milliseconds since the Unix
epoch": the whole milliseconds elapsed since the epoch (Go's `UnixMilli`). -/
def Time.UnixMilli (t : Time) : Int :=
  t / 1000000

/-- The claims' reading of "`substr` occurs in `s` at position `j`". -/
def OccursAt (substr s : List Char) (j : Nat) : Prop :=
  substr <+: s.drop j

instance (substr s : List Char) (j : Nat) : Decidable (OccursAt substr s j) := by
  unfold OccursAt; infer_instance

/-- An example provider whose `Get` fails: it returns the pointer it was built
with and an error, and its `Put` accepts everything. -/
def failingProvider (rl : Ptr) : ProviderImpl Unit :=
  { Reset := fun h s _ => ((false, none), h, s)
    Close := fun h s => (none, h, s)
    Name := "failing provider"
    Put := fun h s _ _ => (none, h, s)
    Get := fun h s _ => ((rl, some "connection refused"), h, s) }

/-- An example stand-in for `net.SplitHostPort`: splits at the last colon, and
fails when there is none. -/
def splitAtLastColon (hostport : String) : Option (String × String) :=
  match hostport.data.reverse.span (fun c => c != ':') with
  | (port, _ :: host) => some (String.mk host.reverse, String.mk port.reverse)
  | (_, []) => none

/-- An example request: no `True-Client-IP` or `X-Real-IP` header, and a
forwarded-for chain of two addresses. -/
def forwardedRequest : Request :=
  { Header := fun k => if k = "X-Forwarded-For" then "1.2.3.4, 5.6.7.8" else ""
    RemoteAddr := "10.0.0.1:4711" }

/-- An example state: the keys "a" and "b" hold the same pointer, to a state
with 5 requests left of 5. This is the state after `rl := NewRatelimit(5,
false, t)`, `Put("a", rl)` and `Put("b", rl)` on a new provider. -/
def sharedState : Heap × Provider :=
  ((NewRatelimit Heap.empty 5 false Hour).2,
    ((NewProvider.Put "a" (some 0)).2.Put "b" (some 0)).2)

/-- The claims' reading of "the overrides applied in order to the options":
the first override of the list is applied to the options, then the rest of
the list to what it returns. -/
def overridesInOrder {σ : Type} (options : Options σ) :
    List (OptionsOverrideFunc σ) → Options σ
  | [] => options
  | override :: rest => overridesInOrder (override options) rest

/-- A run allowed its request: it called the next handler. -/
def Outcome.allowed (o : Outcome) : Bool :=
  decide (Effect.next ∈ o.effects)

/-- A run denied its request: it called the `onRatelimit` hook. -/
def Outcome.denied (o : Outcome) : Bool :=
  decide (Effect.onRatelimit ∈ o.effects)

/-! ## Basic facts -/

theorem wrapInt32_of_isInt32 {x : Int} (hx : isInt32 x) : wrapInt32 x = x := by
  unfold isInt32 at hx
  unfold wrapInt32
  omega

theorem Ratelimit.Copy_Remaining (r : Ratelimit) (hr : isInt32 r.Remaining) :
    r.Copy.Remaining = max (r.Remaining - 1) 0 := by
  unfold isInt32 at hr
  by_cases hpos : r.Remaining > 0
  · have hw : wrapInt32 (r.Remaining - 1) = r.Remaining - 1 :=
      wrapInt32_of_isInt32 (by unfold isInt32; omega)
    simp only [Ratelimit.Copy, hpos, if_true, hw]
    omega
  · simp only [Ratelimit.Copy, hpos, if_false]
    omega

theorem Heap.load_store_same (h : Heap) (a : Nat) (v : Ratelimit) :
    (h.store a v).load a = v := by
  simp [Heap.load, Heap.store]

theorem Ratelimit.Copy_iterate (s : Ratelimit) (hs : isInt32 s.Remaining) (n : Nat) :
    (Ratelimit.Copy^[n + 1] s).Remaining = max (s.Remaining - (n + 1 : Nat)) 0 ∧
      (Ratelimit.Copy^[n + 1] s).Limit = s.Limit ∧
      (Ratelimit.Copy^[n + 1] s).Global = s.Global ∧
      (Ratelimit.Copy^[n + 1] s).ResetTime = s.ResetTime := by
  induction n with
  | zero =>
    refine ⟨?_, rfl, rfl, rfl⟩
    simp only [Function.iterate_succ, Function.iterate_zero, Function.comp_apply, id_eq]
    rw [Ratelimit.Copy_Remaining s hs]
    simp
  | succ n ih =>
    obtain ⟨hrem, hlim, hglob, hreset⟩ := ih
    rw [Function.iterate_succ_apply']
    have hrange : isInt32 (Ratelimit.Copy^[n + 1] s).Remaining := by
      unfold isInt32 at hs ⊢
      rw [hrem]
      omega
    refine ⟨?_, hlim, hglob, hreset⟩
    rw [Ratelimit.Copy_Remaining _ hrange, hrem]
    push_cast
    omega

theorem Provider.Get_present (h : Heap) (p : Provider) (key : String) (a : Nat)
    (hp : p.data key = some (some a)) :
    p.Get h key = ((some a, none), h.store a (h.load a).Copy, p.assign key (some a)) := by
  simp [Provider.Get, Provider.find, hp, Copy]

theorem Provider.Get_absent (h : Heap) (p : Provider) (key : String)
    (hp : p.data key = none) : p.Get h key = ((none, none), h, p) := by
  simp [Provider.Get, Provider.find, hp]

theorem Provider.GetTimes_succ (key : String) (n : Nat) (h : Heap) (p : Provider) :
    Provider.GetTimes key (n + 1) h p
      = (Provider.GetTimes key n h p).2.2.Get (Provider.GetTimes key n h p).2.1 key := rfl

theorem Provider.GetTimes_present (key : String) (a : Nat) (n : Nat) (h : Heap) (p : Provider)
    (hp : p.data key = some (some a)) :
    (Provider.GetTimes key (n + 1) h p).1 = (some a, none) ∧
      (Provider.GetTimes key (n + 1) h p).2.1.load a = Ratelimit.Copy^[n + 1] (h.load a) ∧
      (Provider.GetTimes key (n + 1) h p).2.2.data key = some (some a) := by
  induction n with
  | zero =>
    rw [Provider.GetTimes_succ]
    simp [Provider.GetTimes, Provider.Get_present h p key a hp, Heap.load_store_same,
      Provider.assign]
  | succ n ih =>
    obtain ⟨_, hload, hdata⟩ := ih
    rw [Provider.GetTimes_succ, Provider.Get_present _ _ key a hdata,
      Function.iterate_succ_apply', ← hload]
    simp [Heap.load_store_same, Provider.assign]

theorem Ratelimiter.Middleware_eq_respond {σ : Type} (r : Ratelimiter σ) (clock : Clock)
    (h : Heap) (s : σ) (req : Request) :
    r.Middleware clock h s req
      = (Ratelimiter.respond clock (r.lookup clock h s req).2.1 (r.lookup clock h s req).1.1
          (r.lookup clock h s req).1.2.1 (r.lookup clock h s req).1.2.2,
        (r.lookup clock h s req).2) := rfl

theorem Ratelimiter.Middleware_absent_key (limit : Int) (window : Duration)
    (keyFunc : Request → String) (checkIfGlobalFunc : Request → Bool) (clock : Clock)
    (h : Heap) (p : Provider) (req : Request) (hp : p.data (keyFunc req) = none) :
    (Ratelimiter.inMemory limit window keyFunc checkIfGlobalFunc).Middleware clock h p req
      = ({ effects := [], panic := some Panic.nilDereference }, h, p) := by
  simp [Ratelimiter.Middleware, Ratelimiter.lookup, Ratelimiter.inMemory, inmemory,
    Provider.Get_absent h p _ hp, Ratelimiter.respond]

theorem stringsIndexFrom_none (substr s : List Char) (i : Nat) (hne : substr ≠ [])
    (hno : ∀ j, ¬ OccursAt substr s j) : stringsIndexFrom substr s i = -1 := by
  induction s generalizing i with
  | nil =>
    cases substr with
    | nil => exact absurd rfl hne
    | cons c cs => simp [stringsIndexFrom]
  | cons c cs ih =>
    have h0 : ¬ substr <+: c :: cs := by
      have := hno 0
      simpa [OccursAt] using this
    have hrest : ∀ j, ¬ OccursAt substr cs j := by
      intro j hj
      exact hno (j + 1) (by simpa [OccursAt] using hj)
    simp only [stringsIndexFrom, List.isPrefixOf_iff_prefix, h0, if_false]
    exact ih (i + 1) hrest

theorem stringsIndexFrom_first (substr s : List Char) (i j : Nat)
    (hocc : OccursAt substr s j) (hfirst : ∀ j', j' < j → ¬ OccursAt substr s j') :
    stringsIndexFrom substr s i = ((i + j : Nat) : Int) := by
  induction s generalizing i j with
  | nil =>
    have hsub : substr = [] := by
      simpa [OccursAt] using hocc
    subst hsub
    have hj : j = 0 := by
      by_contra hne
      exact hfirst 0 (Nat.pos_of_ne_zero hne) (by simp [OccursAt])
    subst hj
    simp [stringsIndexFrom]
  | cons c cs ih =>
    by_cases h0 : substr <+: c :: cs
    · have hj : j = 0 := by
        by_contra hne
        exact hfirst 0 (Nat.pos_of_ne_zero hne) (by simpa [OccursAt] using h0)
      subst hj
      simp [stringsIndexFrom, h0]
    · cases j with
      | zero => exact absurd (by simpa [OccursAt] using hocc) h0
      | succ j0 =>
        have hocc0 : OccursAt substr cs j0 := by simpa [OccursAt] using hocc
        have hfirst0 : ∀ j', j' < j0 → ¬ OccursAt substr cs j' := by
          intro j' hlt hj'
          exact hfirst (j' + 1) (by omega) (by simpa [OccursAt] using hj')
        simp only [stringsIndexFrom, List.isPrefixOf_iff_prefix, h0, if_false]
        rw [ih (i + 1) j0 hocc0 hfirst0]
        congr 1
        omega

theorem CopyTimes_load (n : Nat) (h : Heap) (r : Nat) :
    (CopyTimes n h r).1 = r ∧ (CopyTimes n h r).2.load r = Ratelimit.Copy^[n] (h.load r) := by
  induction n with
  | zero => exact ⟨rfl, rfl⟩
  | succ n ih =>
    obtain ⟨hptr, hload⟩ := ih
    rw [Function.iterate_succ_apply', ← hload]
    simp only [CopyTimes, Copy, hptr, Heap.load_store_same, and_self]

theorem Heap.load_alloc (h : Heap) (v : Ratelimit) : (h.alloc v).2.load (h.alloc v).1 = v := by
  simp [Heap.load, Heap.alloc]

theorem applyOverrides_eq_overridesInOrder {σ : Type} (options : Options σ)
    (opts : List (OptionsOverrideFunc σ)) :
    applyOverrides options opts = overridesInOrder options opts := by
  induction opts generalizing options with
  | nil => rfl
  | cons f rest ih => exact ih (f options)

theorem applyOverrides_append {σ : Type} (options : Options σ)
    (before after : List (OptionsOverrideFunc σ)) :
    applyOverrides options (before ++ after)
      = applyOverrides (applyOverrides options before) after := by
  simp [applyOverrides, List.foldl_append]

theorem applyOverrides_DefaultLimit {σ : Type} (opts : List (OptionsOverrideFunc σ))
    (hkeep : ∀ f ∈ opts, ∀ o, (f o).DefaultLimit = o.DefaultLimit) (options : Options σ) :
    (applyOverrides options opts).DefaultLimit = options.DefaultLimit := by
  induction opts generalizing options with
  | nil => rfl
  | cons f rest ih =>
    have hrest : ∀ g ∈ rest, ∀ o, (g o).DefaultLimit = o.DefaultLimit :=
      fun g hg => hkeep g (List.mem_cons_of_mem f hg)
    have hstep : applyOverrides options (f :: rest) = applyOverrides (f options) rest := rfl
    rw [hstep, ih hrest (f options), hkeep f (List.mem_cons_self f rest)]

theorem applyOverrides_DefaultTimeWindow {σ : Type} (opts : List (OptionsOverrideFunc σ))
    (hkeep : ∀ f ∈ opts, ∀ o, (f o).DefaultTimeWindow = o.DefaultTimeWindow)
    (options : Options σ) :
    (applyOverrides options opts).DefaultTimeWindow = options.DefaultTimeWindow := by
  induction opts generalizing options with
  | nil => rfl
  | cons f rest ih =>
    have hrest : ∀ g ∈ rest, ∀ o, (g o).DefaultTimeWindow = o.DefaultTimeWindow :=
      fun g hg => hkeep g (List.mem_cons_of_mem f hg)
    have hstep : applyOverrides options (f :: rest) = applyOverrides (f options) rest := rfl
    rw [hstep, ih hrest (f options), hkeep f (List.mem_cons_self f rest)]

theorem Ratelimiter.serve_NewProvider (limit : Int) (window : Duration)
    (keyFunc : Request → String) (checkIfGlobalFunc : Request → Bool) (h : Heap)
    (reqs : List (Clock × Request)) :
    (Ratelimiter.inMemory limit window keyFunc checkIfGlobalFunc).serve h NewProvider reqs
      = (reqs.map fun _ => { effects := [], panic := some Panic.nilDereference },
          h, NewProvider) := by
  induction reqs with
  | nil => rfl
  | cons cr rest ih =>
    obtain ⟨clock, req⟩ := cr
    simp only [Ratelimiter.serve, List.map_cons,
      Ratelimiter.Middleware_absent_key limit window keyFunc checkIfGlobalFunc clock h
        NewProvider req rfl, ih]

/-! ## The state queries (`Expired`, `Exceeded`, `Copy`) -/

/-- C5. What `Expired` computes: it returns true exactly when the reset time
is at or after the current time, `now <= ResetTime`. With the reset time at
200 it therefore reports a state as expired at time 100, before the reset
time, and as not expired at time 300, after it. -/
theorem Expired_compares_backwards :
    (∀ (r : Ratelimit) (now : Time), r.Expired now = true ↔ now ≤ r.ResetTime) ∧
      Ratelimit.Expired { ResetTime := 200, Remaining := 5, Global := false, Limit := 5 } 100
        = true ∧
      Ratelimit.Expired { ResetTime := 200, Remaining := 5, Global := false, Limit := 5 } 300
        = false := by
  refine ⟨?_, by decide, by decide⟩
  intro r now
  simp [Ratelimit.Expired]

/-- C4. What `Exceeded` computes: it returns true exactly when the reset time
is strictly before the current time and `Remaining` is 0. A state with
`Remaining = 0` is therefore not exceeded at time 100 when its window runs
until 200, and is exceeded at time 300, after the window has ended. -/
theorem Exceeded_after_reset_time :
    (∀ (r : Ratelimit) (now : Time),
        r.Exceeded now = true ↔ (r.ResetTime < now ∧ r.Remaining = 0)) ∧
      Ratelimit.Exceeded { ResetTime := 200, Remaining := 0, Global := false, Limit := 5 } 100
        = false ∧
      Ratelimit.Exceeded { ResetTime := 200, Remaining := 0, Global := false, Limit := 5 } 300
        = true := by
  refine ⟨?_, by decide, by decide⟩
  intro r now
  simp [Ratelimit.Exceeded, Ratelimit.Expired]

/-- C6. For a receiver whose `Remaining` is an `int32`, the state that the
pointer returned by `Copy` designates has `Remaining = max (Remaining - 1) 0`
and the receiver's `Limit`, `Global` and `ResetTime`; from `Remaining = 0` it
has `Remaining = 0`, and its `Remaining` is never negative. -/
theorem Copy_decrements (h : Heap) (r : Nat) (hr : isInt32 (h.load r).Remaining) :
    ((Copy h r).2.load (Copy h r).1).Remaining = max ((h.load r).Remaining - 1) 0 ∧
      ((Copy h r).2.load (Copy h r).1).Limit = (h.load r).Limit ∧
      ((Copy h r).2.load (Copy h r).1).Global = (h.load r).Global ∧
      ((Copy h r).2.load (Copy h r).1).ResetTime = (h.load r).ResetTime ∧
      ((h.load r).Remaining = 0 → ((Copy h r).2.load (Copy h r).1).Remaining = 0) ∧
      0 ≤ ((Copy h r).2.load (Copy h r).1).Remaining := by
  have hload : (Copy h r).2.load (Copy h r).1 = (h.load r).Copy := by
    simp [Copy, Heap.load_store_same]
  have hrem := Ratelimit.Copy_Remaining (h.load r) hr
  rw [hload]
  refine ⟨hrem, rfl, rfl, rfl, ?_, ?_⟩
  · intro h0
    rw [hrem, h0]
    decide
  · rw [hrem]
    exact le_max_right _ _

/-- C6, at concrete heaps: a fresh state of limit 0, and one of limit 1000,
copied once. -/
theorem Copy_decrements_witness :
    ((Copy (NewRatelimit Heap.empty 0 false 7).2 0).2.load
          (Copy (NewRatelimit Heap.empty 0 false 7).2 0).1).Remaining
        = max (((NewRatelimit Heap.empty 0 false 7).2.load 0).Remaining - 1) 0 ∧
      ((Copy (NewRatelimit Heap.empty 1000 false 7).2 0).2.load
          (Copy (NewRatelimit Heap.empty 1000 false 7).2 0).1).Remaining = 999 :=
  ⟨(Copy_decrements (NewRatelimit Heap.empty 0 false 7).2 0 (by decide)).1,
    (Copy_decrements (NewRatelimit Heap.empty 1000 false 7).2 0 (by decide)).1⟩

/-! ## The in-memory provider -/

/-- C7. `Put(key, value)` on the in-memory provider returns an error exactly
when the key is already present; when it does, the map and the heap are left
as they were; when it does not, the key maps to `value` afterwards, every
other key is as before and the heap is unchanged. -/
theorem Put_insert_only (h : Heap) (p : Provider) (key : String) (value : Ptr) :
    (((inmemory.Put h p key value).1 ≠ none) ↔ (p.data key ≠ none)) ∧
      ((inmemory.Put h p key value).1 ≠ none →
        (inmemory.Put h p key value).2.2 = p ∧
          (inmemory.Put h p key value).2.2.data key = p.data key) ∧
      ((inmemory.Put h p key value).1 = none →
        (inmemory.Put h p key value).2.2.data key = some value ∧
          ∀ k, k ≠ key → (inmemory.Put h p key value).2.2.data k = p.data k) ∧
      (inmemory.Put h p key value).2.1 = h := by
  cases hk : p.data key with
  | none =>
    simp [inmemory, Provider.Put, hk, Provider.assign]
    intro k hne
    simp [hne]
  | some v =>
    simp [inmemory, Provider.Put, hk]

/-- C8. `Reset(key)` on the in-memory provider: when the key holds a state
(a non-nil pointer), it returns `(true, nil)` and a `Get(key)` right after
returns `(nil, nil)`; when the key is absent, it returns `(false, nil)` and
leaves the provider as it was. The heap is untouched in both cases. -/
theorem Reset_removes (h : Heap) (p : Provider) (key : String) :
    (∀ a, p.data key = some (some a) →
        (inmemory.Reset h p key).1 = (true, none) ∧
          ((inmemory.Reset h p key).2.2.Get (inmemory.Reset h p key).2.1 key).1
            = (none, none)) ∧
      (p.data key = none →
        (inmemory.Reset h p key).1 = (false, none) ∧ (inmemory.Reset h p key).2.2 = p) ∧
      (inmemory.Reset h p key).2.1 = h := by
  refine ⟨?_, ?_, ?_⟩
  · intro a ha
    simp [inmemory, Provider.Reset, Provider.find, ha, Provider.Get, Provider.delete]
  · intro hk
    simp [inmemory, Provider.Reset, Provider.find, hk]
  · simp [inmemory]

/-- C8, the scenario of `TestProvider_Reset`: after
`Put("owo", NewRatelimit(1000, false, t))` on a new provider, `Reset("owo")`
returns `(true, nil)` and a following `Get("owo")` returns `(nil, nil)`. -/
theorem Reset_removes_witness :
    (inmemory.Reset (NewRatelimit Heap.empty 1000 false Hour).2
          (NewProvider.Put "owo" (some (NewRatelimit Heap.empty 1000 false Hour).1)).2 "owo").1
        = (true, none) ∧
      ((inmemory.Reset (NewRatelimit Heap.empty 1000 false Hour).2
            (NewProvider.Put "owo" (some (NewRatelimit Heap.empty 1000 false Hour).1)).2
            "owo").2.2.Get
          (inmemory.Reset (NewRatelimit Heap.empty 1000 false Hour).2
            (NewProvider.Put "owo" (some (NewRatelimit Heap.empty 1000 false Hour).1)).2
            "owo").2.1 "owo").1 = (none, none) :=
  (Reset_removes (NewRatelimit Heap.empty 1000 false Hour).2
    (NewProvider.Put "owo" (some (NewRatelimit Heap.empty 1000 false Hour).1)).2 "owo").1
    0 (by decide)

/-- C9. `Get` decrements on read: when `k` is absent from the provider and
`a` points to a state `s` whose `Remaining` is an `int32`, then after
`Put(k, a)` the `n`-th consecutive `Get(k)`, `n >= 1`, returns a non-nil
pointer and a nil error, and the state it designates has
`Remaining = max (s.Remaining - n) 0` and the `Limit`, `Global` and
`ResetTime` of `s`. -/
theorem Get_decrements_on_read (h : Heap) (p : Provider) (k : String) (a n : Nat)
    (hk : p.data k = none) (hs : isInt32 (h.load a).Remaining) (hn : 1 ≤ n) :
    ∃ c, (Provider.GetTimes k n h (p.Put k (some a)).2).1 = (some c, none) ∧
      ((Provider.GetTimes k n h (p.Put k (some a)).2).2.1.load c).Remaining
        = max ((h.load a).Remaining - n) 0 ∧
      ((Provider.GetTimes k n h (p.Put k (some a)).2).2.1.load c).Limit = (h.load a).Limit ∧
      ((Provider.GetTimes k n h (p.Put k (some a)).2).2.1.load c).Global = (h.load a).Global ∧
      ((Provider.GetTimes k n h (p.Put k (some a)).2).2.1.load c).ResetTime
        = (h.load a).ResetTime := by
  obtain ⟨m, rfl⟩ : ∃ m, n = m + 1 := ⟨n - 1, by omega⟩
  have hput : (p.Put k (some a)).2.data k = some (some a) := by
    simp [Provider.Put, hk, Provider.assign]
  obtain ⟨hres, hload, _⟩ := Provider.GetTimes_present k a m h _ hput
  obtain ⟨hrem, hlim, hglob, hreset⟩ := Ratelimit.Copy_iterate (h.load a) hs m
  refine ⟨a, hres, ?_, ?_, ?_, ?_⟩ <;> rw [hload]
  · exact hrem
  · exact hlim
  · exact hglob
  · exact hreset

/-- C9, the scenario of `TestProvider_Get`: after
`Put("owo", NewRatelimit(1000, false, t))` on a new provider, the first
`Get("owo")` returns a state with `Remaining = 999`. -/
theorem Get_decrements_on_read_witness :
    ∃ c, (Provider.GetTimes "owo" 1 (NewRatelimit Heap.empty 1000 false Hour).2
          (NewProvider.Put "owo" (some 0)).2).1 = (some c, none) ∧
      ((Provider.GetTimes "owo" 1 (NewRatelimit Heap.empty 1000 false Hour).2
          (NewProvider.Put "owo" (some 0)).2).2.1.load c).Remaining = 999 := by
  obtain ⟨c, hres, hrem, _⟩ :=
    Get_decrements_on_read (NewRatelimit Heap.empty 1000 false Hour).2 NewProvider "owo" 0 1
      (by decide) (by decide) (by decide)
  exact ⟨c, hres, by rw [hrem]; decide⟩

/-! ## The middleware -/

/-- C1. The first request for a key, on a new in-memory provider: for every
limit, window, key function, global-flag function, clock and request, the
lookup returns a nil pointer, the creation branch (guarded by `rl != nil`) is
skipped, and `rl.Exceeded()` dereferences nil. The run panics before any
header is set or the next handler is invoked, and leaves the provider
empty. -/
theorem Middleware_first_request_panics (limit : Int) (window : Duration)
    (keyFunc : Request → String) (checkIfGlobalFunc : Request → Bool) (clock : Clock)
    (h : Heap) (req : Request) :
    (Ratelimiter.inMemory limit window keyFunc checkIfGlobalFunc).Middleware clock h
        NewProvider req
      = ({ effects := [], panic := some Panic.nilDereference }, h, NewProvider) :=
  Ratelimiter.Middleware_absent_key limit window keyFunc checkIfGlobalFunc clock h
    NewProvider req rfl

/-- C2. Any sequence of requests served from a new in-memory provider: every
one of them panics on the nil dereference, whatever the limit, and the
provider stays empty; none is allowed and none is denied through
`onRatelimit`. With limit 3 and four requests for one key, the four outcomes
are four panics. -/
theorem Middleware_requests_all_panic :
    (∀ (limit : Int) (window : Duration) (keyFunc : Request → String)
        (checkIfGlobalFunc : Request → Bool) (h : Heap) (reqs : List (Clock × Request)),
        (Ratelimiter.inMemory limit window keyFunc checkIfGlobalFunc).serve h NewProvider reqs
          = (reqs.map fun _ => { effects := [], panic := some Panic.nilDereference },
              h, NewProvider)) ∧
      ((Ratelimiter.inMemory 3 Hour (fun _ => "k") (fun _ => true)).serve Heap.empty NewProvider
          [({ atCreate := 10, atExceeded := 10, atRetry := 10 }, Request.plain "10.0.0.1:80"),
            ({ atCreate := 20, atExceeded := 20, atRetry := 20 }, Request.plain "10.0.0.1:80"),
            ({ atCreate := 30, atExceeded := 30, atRetry := 30 }, Request.plain "10.0.0.1:80"),
            ({ atCreate := 40, atExceeded := 40, atRetry := 40 }, Request.plain "10.0.0.1:80")]).1
        = [{ effects := [], panic := some Panic.nilDereference },
            { effects := [], panic := some Panic.nilDereference },
            { effects := [], panic := some Panic.nilDereference },
            { effects := [], panic := some Panic.nilDereference }] := by
  have general : ∀ (limit : Int) (window : Duration) (keyFunc : Request → String)
      (checkIfGlobalFunc : Request → Bool) (h : Heap) (reqs : List (Clock × Request)),
      (Ratelimiter.inMemory limit window keyFunc checkIfGlobalFunc).serve h NewProvider reqs
        = (reqs.map fun _ => { effects := [], panic := some Panic.nilDereference },
            h, NewProvider) := by
    intro limit window keyFunc checkIfGlobalFunc h reqs
    induction reqs with
    | nil => rfl
    | cons cr rest ih =>
      obtain ⟨clock, req⟩ := cr
      simp only [Ratelimiter.serve, List.map_cons,
        Ratelimiter.Middleware_absent_key limit window keyFunc checkIfGlobalFunc clock h
          NewProvider req rfl, ih]
  refine ⟨general, ?_⟩
  rw [general]
  rfl

/-- C3. A request after the reset time of the stored state, at limit 3: the
key "k" holds a state with `Remaining = 0` and reset time 500, and the request
arrives at time 1000. The run is allowed, and the `X-RateLimit-Remaining`
header it sets is "3", the full limit: the state in hand is the one just
created, which no `Copy` has decremented. The provider rejects the `Put` of
that state, so the key keeps the old pointer. -/
theorem Middleware_rollover_reports_limit :
    ((Ratelimiter.inMemory 3 Hour (fun _ => "k") (fun _ => true)).Middleware
          { atCreate := 1000, atExceeded := 1000, atRetry := 1000 }
          exhaustedState.1 exhaustedState.2 (Request.plain "10.0.0.1:80")).1
        = { effects :=
              [ Effect.setHeader "X-RateLimit-Remaining" "3",
                Effect.setHeader "X-RateLimit-Global" "true",
                Effect.setHeader "X-RateLimit-Reset" "3600000",
                Effect.setHeader "X-RateLimit-Limit" "3",
                Effect.next ],
            panic := none } ∧
      ((Ratelimiter.inMemory 3 Hour (fun _ => "k") (fun _ => true)).Middleware
          { atCreate := 1000, atExceeded := 1000, atRetry := 1000 }
          exhaustedState.1 exhaustedState.2 (Request.plain "10.0.0.1:80")).2.2.data "k"
        = some (some 0) := by
  constructor <;> decide

/-- C10. A run of the handler that does not panic, over any provider: the
pointer in hand after the lookup is not nil, and `Exceeded` on the state it
designates decides the outcome. When it is true the effects are, in order,
the `Retry-After` header and the `onRatelimit` hook, and nothing else (the
next handler is not invoked); when it is false they are the four
`X-RateLimit-*` headers followed by one call of the next handler, and the
hook is not invoked. -/
theorem Middleware_allow_or_deny {σ : Type} (r : Ratelimiter σ) (clock : Clock) (h : Heap)
    (s : σ) (req : Request) (hdone : (r.Middleware clock h s req).1.panic = none) :
    ∃ a, (r.lookup clock h s req).1.2.1 = some a ∧
      (((r.lookup clock h s req).2.1.load a).Exceeded clock.atExceeded = true →
        ∃ retry, (r.Middleware clock h s req).1.effects
          = [Effect.setHeader "Retry-After" retry, Effect.onRatelimit]) ∧
      (((r.lookup clock h s req).2.1.load a).Exceeded clock.atExceeded = false →
        ∃ remaining isGlobal reset limit, (r.Middleware clock h s req).1.effects
          = [ Effect.setHeader "X-RateLimit-Remaining" remaining,
              Effect.setHeader "X-RateLimit-Global" isGlobal,
              Effect.setHeader "X-RateLimit-Reset" reset,
              Effect.setHeader "X-RateLimit-Limit" limit,
              Effect.next ]) := by
  rw [Ratelimiter.Middleware_eq_respond] at hdone ⊢
  generalize r.lookup clock h s req = st at hdone ⊢
  obtain ⟨⟨isGlobal, rl, err⟩, h1, s1⟩ := st
  cases err with
  | some e => simp [Ratelimiter.respond] at hdone
  | none =>
    cases rl with
    | none => simp [Ratelimiter.respond] at hdone
    | some a =>
      refine ⟨a, rfl, ?_, ?_⟩
      · intro hex
        simp only at hex
        exact ⟨FormatInt (Duration.Milliseconds (Time.Sub clock.atRetry (h1.load a).ResetTime)),
          by simp only [Ratelimiter.respond, hex, if_true]⟩
      · intro hex
        simp only at hex
        exact ⟨_, _, _, _, by simp only [Ratelimiter.respond, hex]; rfl⟩

/-- C10, at two runs on a provider where the key "k" holds a state. With
limit 3 the state in hand is not exceeded and the run sets the four headers
and calls the next handler; with limit 0, created at time 0 with a window of
10 and checked at time 100, it is exceeded and the run sets `Retry-After` and
calls the hook. -/
theorem Middleware_allow_or_deny_witness :
    (∃ a, ((limiterK 3).lookup { atCreate := 0, atExceeded := 100, atRetry := 100 }
          exhaustedState.1 exhaustedState.2 (Request.plain "10.0.0.1:80")).1.2.1 = some a ∧
      ((((limiterK 3).lookup { atCreate := 0, atExceeded := 100, atRetry := 100 }
          exhaustedState.1 exhaustedState.2 (Request.plain "10.0.0.1:80")).2.1.load a).Exceeded
            100 = true →
        ∃ retry, ((limiterK 3).Middleware { atCreate := 0, atExceeded := 100, atRetry := 100 }
            exhaustedState.1 exhaustedState.2 (Request.plain "10.0.0.1:80")).1.effects
          = [Effect.setHeader "Retry-After" retry, Effect.onRatelimit]) ∧
      ((((limiterK 3).lookup { atCreate := 0, atExceeded := 100, atRetry := 100 }
          exhaustedState.1 exhaustedState.2 (Request.plain "10.0.0.1:80")).2.1.load a).Exceeded
            100 = false →
        ∃ remaining isGlobal reset limit,
          ((limiterK 3).Middleware { atCreate := 0, atExceeded := 100, atRetry := 100 }
            exhaustedState.1 exhaustedState.2 (Request.plain "10.0.0.1:80")).1.effects
          = [ Effect.setHeader "X-RateLimit-Remaining" remaining,
              Effect.setHeader "X-RateLimit-Global" isGlobal,
              Effect.setHeader "X-RateLimit-Reset" reset,
              Effect.setHeader "X-RateLimit-Limit" limit,
              Effect.next ])) ∧
    (∃ a, ((limiterK 0).lookup { atCreate := 0, atExceeded := 100, atRetry := 100 }
          exhaustedState.1 exhaustedState.2 (Request.plain "10.0.0.1:80")).1.2.1 = some a ∧
      ((((limiterK 0).lookup { atCreate := 0, atExceeded := 100, atRetry := 100 }
          exhaustedState.1 exhaustedState.2 (Request.plain "10.0.0.1:80")).2.1.load a).Exceeded
            100 = true →
        ∃ retry, ((limiterK 0).Middleware { atCreate := 0, atExceeded := 100, atRetry := 100 }
            exhaustedState.1 exhaustedState.2 (Request.plain "10.0.0.1:80")).1.effects
          = [Effect.setHeader "Retry-After" retry, Effect.onRatelimit]) ∧
      ((((limiterK 0).lookup { atCreate := 0, atExceeded := 100, atRetry := 100 }
          exhaustedState.1 exhaustedState.2 (Request.plain "10.0.0.1:80")).2.1.load a).Exceeded
            100 = false →
        ∃ remaining isGlobal reset limit,
          ((limiterK 0).Middleware { atCreate := 0, atExceeded := 100, atRetry := 100 }
            exhaustedState.1 exhaustedState.2 (Request.plain "10.0.0.1:80")).1.effects
          = [ Effect.setHeader "X-RateLimit-Remaining" remaining,
              Effect.setHeader "X-RateLimit-Global" isGlobal,
              Effect.setHeader "X-RateLimit-Reset" reset,
              Effect.setHeader "X-RateLimit-Limit" limit,
              Effect.next ])) ∧
    ((limiterK 3).Middleware { atCreate := 0, atExceeded := 100, atRetry := 100 }
        exhaustedState.1 exhaustedState.2 (Request.plain "10.0.0.1:80")).1.effects
      = [ Effect.setHeader "X-RateLimit-Remaining" "3",
          Effect.setHeader "X-RateLimit-Global" "true",
          Effect.setHeader "X-RateLimit-Reset" "0",
          Effect.setHeader "X-RateLimit-Limit" "3",
          Effect.next ] ∧
    ((limiterK 0).Middleware { atCreate := 0, atExceeded := 100, atRetry := 100 }
        exhaustedState.1 exhaustedState.2 (Request.plain "10.0.0.1:80")).1.effects
      = [Effect.setHeader "Retry-After" "0", Effect.onRatelimit] :=
  ⟨Middleware_allow_or_deny (limiterK 3) { atCreate := 0, atExceeded := 100, atRetry := 100 }
      exhaustedState.1 exhaustedState.2 (Request.plain "10.0.0.1:80") (by decide),
    Middleware_allow_or_deny (limiterK 0) { atCreate := 0, atExceeded := 100, atRetry := 100 }
      exhaustedState.1 exhaustedState.2 (Request.plain "10.0.0.1:80") (by decide),
    by decide, by decide⟩

/-- C11. The `Retry-After` value on a denial: for every state in hand that is
exceeded, the header is the decimal numeral of the milliseconds of
`now - ResetTime`, the time elapsed since the reset time, not of
`ResetTime - now`. With limit 0 and a window of 1 ms, a state created at time
0 has reset time 1 ms; checked at time 3 ms it is denied with `Retry-After`
"2", while 1 ms - 3 ms is -2 ms. -/
theorem Retry_After_counts_from_reset_time :
    (∀ (clock : Clock) (h : Heap) (isGlobal : Bool) (a : Nat),
        (h.load a).Exceeded clock.atExceeded = true →
        (Ratelimiter.respond clock h isGlobal (some a) none).effects
          = [Effect.setHeader "Retry-After"
                (FormatInt (Duration.Milliseconds (Time.Sub clock.atRetry (h.load a).ResetTime))),
              Effect.onRatelimit]) ∧
      ((Ratelimiter.inMemory 0 1000000 (fun _ => "k") (fun _ => true)).Middleware
          { atCreate := 0, atExceeded := 3000000, atRetry := 3000000 }
          exhaustedState.1 exhaustedState.2 (Request.plain "10.0.0.1:80")).1
        = { effects := [Effect.setHeader "Retry-After" "2", Effect.onRatelimit],
            panic := none } ∧
      (((Ratelimiter.inMemory 0 1000000 (fun _ => "k") (fun _ => true)).Middleware
          { atCreate := 0, atExceeded := 3000000, atRetry := 3000000 }
          exhaustedState.1 exhaustedState.2 (Request.plain "10.0.0.1:80")).2.1.load 1).ResetTime
        = 1000000 ∧
      FormatInt (Duration.Milliseconds (Time.Sub 1000000 3000000)) = "-2" := by
  refine ⟨?_, by decide, by decide, by decide⟩
  intro clock h isGlobal a hex
  simp only [Ratelimiter.respond, hex, if_true]

/-- C12. A provider whose `Get` returns a non-nil error for the key of the
request, with or without a pointer: the handler run ends in `panic(err)`
carrying that error, and it has no effect before it, so no header is set and
the next handler is not invoked. -/
theorem Middleware_panics_on_Get_error {σ : Type} (r : Ratelimiter σ) (clock : Clock)
    (h : Heap) (s : σ) (req : Request) (e : String)
    (herr : (r.provider.Get h s (r.keyFunc req)).1.2 = some e) :
    (r.Middleware clock h s req).1 = { effects := [], panic := some (Panic.error e) } := by
  generalize hget : r.provider.Get h s (r.keyFunc req) = res at herr
  obtain ⟨⟨rl, err⟩, h1, s1⟩ := res
  simp only at herr
  subst herr
  cases rl with
  | none => simp [Ratelimiter.Middleware, Ratelimiter.lookup, hget, Ratelimiter.respond]
  | some a => simp [Ratelimiter.Middleware, Ratelimiter.lookup, hget, Ratelimiter.respond]

/-- C12, at two providers whose `Get` fails with "connection refused": one
returns a nil pointer with the error, the other a non-nil pointer. Both runs
panic with the error and have no effect. -/
theorem Middleware_panics_on_Get_error_witness :
    (({ checkIfGlobalFunc := fun _ => true, keyFunc := fun _ => "k", defaultTimeWindow := Hour,
        defaultLimit := 3, provider := failingProvider none } : Ratelimiter Unit).Middleware
        { atCreate := 0, atExceeded := 0, atRetry := 0 } Heap.empty ()
        (Request.plain "10.0.0.1:80")).1
      = { effects := [], panic := some (Panic.error "connection refused") } ∧
    (({ checkIfGlobalFunc := fun _ => true, keyFunc := fun _ => "k", defaultTimeWindow := Hour,
        defaultLimit := 3, provider := failingProvider (some 0) } : Ratelimiter Unit).Middleware
        { atCreate := 0, atExceeded := 0, atRetry := 0 } exhaustedState.1 ()
        (Request.plain "10.0.0.1:80")).1
      = { effects := [], panic := some (Panic.error "connection refused") } :=
  ⟨Middleware_panics_on_Get_error _ _ _ _ _ "connection refused" rfl,
    Middleware_panics_on_Get_error _ _ _ _ _ "connection refused" rfl⟩

/-! ## Construction and the key function -/

/-- C13, refuted: `NewRatelimiter` with the override `WithDefaultLimit(0)`
returns a ratelimiter of limit 0, with `WithDefaultLimit(-1)` one of limit -1,
and with `WithDefaultTimeWindow(-5)` one of window -5; the ratelimiter of
limit -1 serves a request, which it allows with `X-RateLimit-Limit` "-1". -/
theorem NewRatelimiter_accepts_invalid :
    (NewRatelimiter splitAtLastColon [WithDefaultLimit 0]).defaultLimit = 0 ∧
      (NewRatelimiter splitAtLastColon [WithDefaultLimit (-1)]).defaultLimit = -1 ∧
      (NewRatelimiter splitAtLastColon [WithDefaultTimeWindow (-5)]).defaultTimeWindow = -5 ∧
      ((NewRatelimiter splitAtLastColon [WithDefaultLimit (-1), WithKeyFunc fun _ => "k"]).Middleware
          { atCreate := 0, atExceeded := 0, atRetry := 0 }
          exhaustedState.1 exhaustedState.2 (Request.plain "10.0.0.1:80")).1
        = { effects :=
              [ Effect.setHeader "X-RateLimit-Remaining" "-1",
                Effect.setHeader "X-RateLimit-Global" "true",
                Effect.setHeader "X-RateLimit-Reset" "3600000",
                Effect.setHeader "X-RateLimit-Limit" "-1",
                Effect.next ],
            panic := none } := by
  refine ⟨rfl, rfl, rfl, by decide⟩

/-- C13, amended. `NewRatelimiter` does not validate and always returns a
ratelimiter: its limit and window are those the overrides leave when applied
in order to the defaults. They are the fields of the defaults after the first
override, then the second, and so on. When the list holds
`WithDefaultLimit(l)` and no later override changes the limit, the limit is
`l`, whatever its sign and whatever comes before; likewise for
`WithDefaultTimeWindow(w)`. When no override changes the limit it is 100, and
when none changes the window it is one hour. -/
theorem NewRatelimiter_keeps_overrides (splitHostPort : String → Option (String × String))
    (opts : List (OptionsOverrideFunc Provider)) (l : Int) (w : Duration) :
    (NewRatelimiter splitHostPort opts).defaultLimit
        = (overridesInOrder (defaultOptions splitHostPort) opts).DefaultLimit ∧
      (NewRatelimiter splitHostPort opts).defaultTimeWindow
        = (overridesInOrder (defaultOptions splitHostPort) opts).DefaultTimeWindow ∧
      (∀ before after, opts = before ++ WithDefaultLimit l :: after →
        (∀ f ∈ after, ∀ o, (f o).DefaultLimit = o.DefaultLimit) →
        (NewRatelimiter splitHostPort opts).defaultLimit = l) ∧
      (∀ before after, opts = before ++ WithDefaultTimeWindow w :: after →
        (∀ f ∈ after, ∀ o, (f o).DefaultTimeWindow = o.DefaultTimeWindow) →
        (NewRatelimiter splitHostPort opts).defaultTimeWindow = w) ∧
      ((∀ f ∈ opts, ∀ o, (f o).DefaultLimit = o.DefaultLimit) →
        (NewRatelimiter splitHostPort opts).defaultLimit = 100) ∧
      ((∀ f ∈ opts, ∀ o, (f o).DefaultTimeWindow = o.DefaultTimeWindow) →
        (NewRatelimiter splitHostPort opts).defaultTimeWindow = Hour) ∧
      (NewRatelimiter splitHostPort (opts ++ [WithDefaultLimit l])).defaultLimit = l ∧
      (NewRatelimiter splitHostPort (opts ++ [WithDefaultTimeWindow w])).defaultTimeWindow
        = w := by
  have hlimit : ∀ os, (NewRatelimiter splitHostPort os).defaultLimit
      = (applyOverrides (defaultOptions splitHostPort) os).DefaultLimit := fun _ => rfl
  have hwindow : ∀ os, (NewRatelimiter splitHostPort os).defaultTimeWindow
      = (applyOverrides (defaultOptions splitHostPort) os).DefaultTimeWindow := fun _ => rfl
  have hstepL : ∀ (o : Options Provider) after,
      applyOverrides o (WithDefaultLimit l :: after)
        = applyOverrides (WithDefaultLimit l o) after := fun _ _ => rfl
  have hstepW : ∀ (o : Options Provider) after,
      applyOverrides o (WithDefaultTimeWindow w :: after)
        = applyOverrides (WithDefaultTimeWindow w o) after := fun _ _ => rfl
  refine ⟨?_, ?_, ?_, ?_, ?_, ?_, ?_, ?_⟩
  · rw [hlimit, applyOverrides_eq_overridesInOrder]
  · rw [hwindow, applyOverrides_eq_overridesInOrder]
  · intro before after hopts hkeep
    rw [hlimit, hopts, applyOverrides_append, hstepL,
      applyOverrides_DefaultLimit after hkeep]
    rfl
  · intro before after hopts hkeep
    rw [hwindow, hopts, applyOverrides_append, hstepW,
      applyOverrides_DefaultTimeWindow after hkeep]
    rfl
  · intro hkeep
    rw [hlimit, applyOverrides_DefaultLimit opts hkeep]
    rfl
  · intro hkeep
    rw [hwindow, applyOverrides_DefaultTimeWindow opts hkeep]
    simp [defaultOptions]
  · simp [NewRatelimiter, applyOverrides, List.foldl_append, WithDefaultLimit]
  · simp [NewRatelimiter, applyOverrides, List.foldl_append, WithDefaultTimeWindow]

/-- C13, at the override list `WithDefaultTimeWindow(-5)`, `WithDefaultLimit(0)`,
`WithKeyFunc(...)`: the ratelimiter has limit 0, set by the second override
and kept by the third, and window -5, set by the first and kept by the other
two. -/
theorem NewRatelimiter_keeps_overrides_witness :
    (NewRatelimiter splitAtLastColon
        [WithDefaultTimeWindow (-5), WithDefaultLimit 0, WithKeyFunc fun _ => "k"]).defaultLimit
        = 0 ∧
      (NewRatelimiter splitAtLastColon
        [WithDefaultTimeWindow (-5), WithDefaultLimit 0,
          WithKeyFunc fun _ => "k"]).defaultTimeWindow = -5 :=
  ⟨(NewRatelimiter_keeps_overrides splitAtLastColon
      [WithDefaultTimeWindow (-5), WithDefaultLimit 0, WithKeyFunc fun _ => "k"] 0 (-5)).2.2.1
      [WithDefaultTimeWindow (-5)] [WithKeyFunc fun _ => "k"] rfl
      (by
        intro f hf o
        rw [List.mem_singleton] at hf
        subst hf
        rfl),
    (NewRatelimiter_keeps_overrides splitAtLastColon
      [WithDefaultTimeWindow (-5), WithDefaultLimit 0, WithKeyFunc fun _ => "k"] 0 (-5)).2.2.2.1
      [] [WithDefaultLimit 0, WithKeyFunc fun _ => "k"] rfl
      (by
        intro f hf o
        simp only [List.mem_cons, List.mem_singleton, List.not_mem_nil, or_false] at hf
        rcases hf with hf | hf <;> subst hf <;> rfl)⟩

/-- C14. The default key function `realIP`: the `True-Client-IP` header when
it is not empty; else the `X-Real-IP` header when it is not empty; else, when
`X-Forwarded-For` is not empty, that value up to its first occurrence of
", " (all of it when ", " does not occur); else the host that
`net.SplitHostPort` returns for `RemoteAddr`, and `RemoteAddr` itself when
`net.SplitHostPort` fails. -/
theorem realIP_precedence (splitHostPort : String → Option (String × String))
    (req : Request) :
    (req.Header "True-Client-IP" ≠ "" →
        realIP splitHostPort req = req.Header "True-Client-IP") ∧
      (req.Header "True-Client-IP" = "" → req.Header "X-Real-IP" ≠ "" →
        realIP splitHostPort req = req.Header "X-Real-IP") ∧
      (req.Header "True-Client-IP" = "" → req.Header "X-Real-IP" = "" →
        req.Header "X-Forwarded-For" ≠ "" →
        ((∀ j, ¬ OccursAt ", ".data (req.Header "X-Forwarded-For").data j) →
            realIP splitHostPort req = req.Header "X-Forwarded-For") ∧
          (∀ j, OccursAt ", ".data (req.Header "X-Forwarded-For").data j →
            (∀ j', j' < j → ¬ OccursAt ", ".data (req.Header "X-Forwarded-For").data j') →
            realIP splitHostPort req
              = String.mk ((req.Header "X-Forwarded-For").data.take j))) ∧
      (req.Header "True-Client-IP" = "" → req.Header "X-Real-IP" = "" →
        req.Header "X-Forwarded-For" = "" →
        (∀ host port, splitHostPort req.RemoteAddr = some (host, port) →
            realIP splitHostPort req = host) ∧
          (splitHostPort req.RemoteAddr = none →
            realIP splitHostPort req = req.RemoteAddr)) := by
  refine ⟨?_, ?_, ?_, ?_⟩
  · intro h1
    simp [realIP, h1]
  · intro h1 h2
    simp [realIP, h1, h2]
  · intro h1 h2 h3
    constructor
    · intro hno
      have hidx : stringsIndex (req.Header "X-Forwarded-For") ", " = -1 :=
        stringsIndexFrom_none _ _ 0 (by decide) hno
      have htake : List.take (req.Header "X-Forwarded-For").data.length
          (req.Header "X-Forwarded-For").data = (req.Header "X-Forwarded-For").data :=
        List.take_length _
      simp only [realIP, h1, h2, h3, hidx, ne_eq, not_true_eq_false, not_false_eq_true,
        if_true, if_false, Int.toNat_ofNat, htake]
    · intro j hocc hfirst
      have hidx : stringsIndex (req.Header "X-Forwarded-For") ", " = (j : Int) := by
        have := stringsIndexFrom_first _ _ 0 j hocc hfirst
        simpa [stringsIndex] using this
      have hne : ¬ ((j : Int) = -1) := by omega
      simp only [realIP, h1, h2, h3, hidx, hne, ne_eq, not_true_eq_false, not_false_eq_true,
        if_true, if_false, Int.toNat_ofNat]
  · intro h1 h2 h3
    constructor
    · intro host port hsplit
      simp [realIP, h1, h2, h3, hsplit]
    · intro hsplit
      simp [realIP, h1, h2, h3, hsplit]

/-- C14, at concrete requests, with a splitting at the last colon standing in
for `net.SplitHostPort`: a forwarded-for chain "1.2.3.4, 5.6.7.8" gives
"1.2.3.4", whose first ", " is at position 7; a request with no such header
from "10.0.0.1:4711" gives "10.0.0.1". -/
theorem realIP_precedence_witness :
    realIP splitAtLastColon forwardedRequest = "1.2.3.4" ∧
      realIP splitAtLastColon (Request.plain "10.0.0.1:4711") = "10.0.0.1" ∧
      realIP splitAtLastColon (Request.plain "localhost") = "localhost" := by
  refine ⟨?_, ?_, ?_⟩
  · have h := ((realIP_precedence splitAtLastColon forwardedRequest).2.2.1
      (by decide) (by decide) (by decide)).2 7 (by decide) (by decide)
    rw [h]
    decide
  · exact ((realIP_precedence splitAtLastColon (Request.plain "10.0.0.1:4711")).2.2.2
      (by decide) (by decide) (by decide)).1 "10.0.0.1" "4711" (by decide)
  · exact ((realIP_precedence splitAtLastColon (Request.plain "localhost")).2.2.2
      (by decide) (by decide) (by decide)).2 (by decide)

/-! ## Header values and the quota invariant -/

/-- C15, refuted: with limit 3 and a window of half a second, a state created
at time 1 s has reset time 1.5 s, which is 1500 ms after the epoch; the
request is allowed and the `X-RateLimit-Reset` header is "1000". -/
theorem Reset_header_drops_milliseconds :
    ((Ratelimiter.inMemory 3 500000000 (fun _ => "k") (fun _ => true)).Middleware
          { atCreate := 1000000000, atExceeded := 1000000000, atRetry := 1000000000 }
          exhaustedState.1 exhaustedState.2 (Request.plain "10.0.0.1:80")).1
        = { effects :=
              [ Effect.setHeader "X-RateLimit-Remaining" "3",
                Effect.setHeader "X-RateLimit-Global" "true",
                Effect.setHeader "X-RateLimit-Reset" "1000",
                Effect.setHeader "X-RateLimit-Limit" "3",
                Effect.next ],
            panic := none } ∧
      (((Ratelimiter.inMemory 3 500000000 (fun _ => "k") (fun _ => true)).lookup
          { atCreate := 1000000000, atExceeded := 1000000000, atRetry := 1000000000 }
          exhaustedState.1 exhaustedState.2 (Request.plain "10.0.0.1:80")).2.1.load 1).ResetTime
        = 1500000000 ∧
      FormatInt (Time.UnixMilli 1500000000) = "1500" := by
  refine ⟨by decide, by decide, by decide⟩

/-- C15, amended. Whenever the handler allows a request (it calls the next
handler), over any provider, the `X-RateLimit-Reset` header it sets is the
decimal numeral of 1000 times the whole seconds of the reset time of the state
in hand: the reset time in milliseconds since the epoch, rounded down to a
multiple of 1000. -/
theorem Reset_header_whole_seconds {σ : Type} (r : Ratelimiter σ) (clock : Clock) (h : Heap)
    (s : σ) (req : Request) (hallow : Effect.next ∈ (r.Middleware clock h s req).1.effects) :
    ∃ a, (r.lookup clock h s req).1.2.1 = some a ∧
      Effect.setHeader "X-RateLimit-Reset"
          (FormatInt (Time.Unix ((r.lookup clock h s req).2.1.load a).ResetTime * 1000))
        ∈ (r.Middleware clock h s req).1.effects ∧
      Time.Unix ((r.lookup clock h s req).2.1.load a).ResetTime * 1000
        = Time.UnixMilli ((r.lookup clock h s req).2.1.load a).ResetTime
          - Time.UnixMilli ((r.lookup clock h s req).2.1.load a).ResetTime % 1000 := by
  rw [Ratelimiter.Middleware_eq_respond] at hallow ⊢
  generalize r.lookup clock h s req = st at hallow ⊢
  obtain ⟨⟨isGlobal, rl, err⟩, h1, s1⟩ := st
  cases err with
  | some e => simp [Ratelimiter.respond] at hallow
  | none =>
    cases rl with
    | none => simp [Ratelimiter.respond] at hallow
    | some a =>
      refine ⟨a, rfl, ?_, ?_⟩
      · by_cases hex : (h1.load a).Exceeded clock.atExceeded = true
        · simp [Ratelimiter.respond, hex] at hallow
        · simp [Ratelimiter.respond, hex]
      · simp only [Time.Unix, Time.UnixMilli]
        omega

/-- C15, at a run with limit 3 and a window of 10 ns on a provider where the
key "k" holds a state: the state in hand has reset time 10 ns, and the header
is "0". -/
theorem Reset_header_whole_seconds_witness :
    ∃ a, ((limiterK 3).lookup { atCreate := 0, atExceeded := 100, atRetry := 100 }
          exhaustedState.1 exhaustedState.2 (Request.plain "10.0.0.1:80")).1.2.1 = some a ∧
      Effect.setHeader "X-RateLimit-Reset"
          (FormatInt (Time.Unix (((limiterK 3).lookup
            { atCreate := 0, atExceeded := 100, atRetry := 100 }
            exhaustedState.1 exhaustedState.2 (Request.plain "10.0.0.1:80")).2.1.load a).ResetTime
              * 1000))
        ∈ ((limiterK 3).Middleware { atCreate := 0, atExceeded := 100, atRetry := 100 }
            exhaustedState.1 exhaustedState.2 (Request.plain "10.0.0.1:80")).1.effects := by
  obtain ⟨a, ha, hmem, _⟩ :=
    Reset_header_whole_seconds (limiterK 3) { atCreate := 0, atExceeded := 100, atRetry := 100 }
      exhaustedState.1 exhaustedState.2 (Request.plain "10.0.0.1:80") (by decide)
  exact ⟨a, ha, hmem⟩

/-- C16. The quota invariant: for an `int32` limit that is not negative, the
state that `NewRatelimit(limit, global, resetTime)` returns has
`Remaining = Limit = limit`, and after any number `n` of `Copy` calls on it the
state has `0 <= Remaining <= Limit` and `Limit = limit`. -/
theorem NewRatelimit_quota_invariant (h : Heap) (limit : Int) (global : Bool)
    (resetTime : Time) (n : Nat) (hnonneg : 0 ≤ limit) (hrange : isInt32 limit) :
    ((NewRatelimit h limit global resetTime).2.load
          (NewRatelimit h limit global resetTime).1).Remaining = limit ∧
      ((NewRatelimit h limit global resetTime).2.load
          (NewRatelimit h limit global resetTime).1).Limit = limit ∧
      0 ≤ ((CopyTimes n (NewRatelimit h limit global resetTime).2
              (NewRatelimit h limit global resetTime).1).2.load
            (CopyTimes n (NewRatelimit h limit global resetTime).2
              (NewRatelimit h limit global resetTime).1).1).Remaining ∧
      ((CopyTimes n (NewRatelimit h limit global resetTime).2
              (NewRatelimit h limit global resetTime).1).2.load
            (CopyTimes n (NewRatelimit h limit global resetTime).2
              (NewRatelimit h limit global resetTime).1).1).Remaining
        ≤ ((CopyTimes n (NewRatelimit h limit global resetTime).2
              (NewRatelimit h limit global resetTime).1).2.load
            (CopyTimes n (NewRatelimit h limit global resetTime).2
              (NewRatelimit h limit global resetTime).1).1).Limit ∧
      ((CopyTimes n (NewRatelimit h limit global resetTime).2
              (NewRatelimit h limit global resetTime).1).2.load
            (CopyTimes n (NewRatelimit h limit global resetTime).2
              (NewRatelimit h limit global resetTime).1).1).Limit = limit := by
  have hnew : (NewRatelimit h limit global resetTime).2.load
      (NewRatelimit h limit global resetTime).1 = Ratelimit.new limit global resetTime :=
    Heap.load_alloc h _
  obtain ⟨hptr, hload⟩ := CopyTimes_load n (NewRatelimit h limit global resetTime).2
    (NewRatelimit h limit global resetTime).1
  rw [hptr, hload, hnew]
  refine ⟨rfl, rfl, ?_⟩
  cases n with
  | zero =>
    simp only [Function.iterate_zero, id_eq, Ratelimit.new]
    exact ⟨hnonneg, le_refl _, trivial⟩
  | succ m =>
    obtain ⟨hrem, hlim, _, _⟩ :=
      Ratelimit.Copy_iterate (Ratelimit.new limit global resetTime) hrange m
    rw [hrem, hlim]
    simp only [Ratelimit.new]
    refine ⟨le_max_right _ _, ?_, trivial⟩
    push_cast
    omega

/-- C16, at limit 2: the fresh state has `Remaining = Limit = 2`, and after
three `Copy` calls `0 <= Remaining <= Limit = 2`. -/
theorem NewRatelimit_quota_invariant_witness :
    ((NewRatelimit Heap.empty 2 false Hour).2.load
          (NewRatelimit Heap.empty 2 false Hour).1).Remaining = 2 ∧
      ((NewRatelimit Heap.empty 2 false Hour).2.load
          (NewRatelimit Heap.empty 2 false Hour).1).Limit = 2 ∧
      0 ≤ ((CopyTimes 3 (NewRatelimit Heap.empty 2 false Hour).2
              (NewRatelimit Heap.empty 2 false Hour).1).2.load
            (CopyTimes 3 (NewRatelimit Heap.empty 2 false Hour).2
              (NewRatelimit Heap.empty 2 false Hour).1).1).Remaining ∧
      ((CopyTimes 3 (NewRatelimit Heap.empty 2 false Hour).2
              (NewRatelimit Heap.empty 2 false Hour).1).2.load
            (CopyTimes 3 (NewRatelimit Heap.empty 2 false Hour).2
              (NewRatelimit Heap.empty 2 false Hour).1).1).Remaining
        ≤ ((CopyTimes 3 (NewRatelimit Heap.empty 2 false Hour).2
              (NewRatelimit Heap.empty 2 false Hour).1).2.load
            (CopyTimes 3 (NewRatelimit Heap.empty 2 false Hour).2
              (NewRatelimit Heap.empty 2 false Hour).1).1).Limit ∧
      ((CopyTimes 3 (NewRatelimit Heap.empty 2 false Hour).2
              (NewRatelimit Heap.empty 2 false Hour).1).2.load
            (CopyTimes 3 (NewRatelimit Heap.empty 2 false Hour).2
              (NewRatelimit Heap.empty 2 false Hour).1).1).Limit = 2 :=
  NewRatelimit_quota_invariant Heap.empty 2 false Hour 3 (by decide) (by decide)

/-! ## Behaviour on a key that is present -/

/-- C18. A request whose key holds a state in the in-memory provider, with a
limit `L` between 1 and `2^31 - 1`: whatever the window, the clock and the
stored state, the run does not deny. Its effects are the four headers, with
`X-RateLimit-Remaining` and `X-RateLimit-Limit` both the numeral of `L`,
followed by the next handler; the state in hand is the one just created, and
its `Put` is rejected, so the key keeps the pointer it had. -/
theorem Middleware_present_key_never_denied (L : Int) (window : Duration)
    (keyFunc : Request → String) (checkIfGlobalFunc : Request → Bool) (clock : Clock)
    (h : Heap) (p : Provider) (req : Request) (a : Nat)
    (hlow : 1 ≤ L) (hhigh : L ≤ 2147483647) (hk : p.data (keyFunc req) = some (some a)) :
    ((Ratelimiter.inMemory L window keyFunc checkIfGlobalFunc).Middleware clock h p req).1
        = { effects :=
              [ Effect.setHeader "X-RateLimit-Remaining" (FormatInt L),
                Effect.setHeader "X-RateLimit-Global"
                  (if checkIfGlobalFunc req then "true" else "false"),
                Effect.setHeader "X-RateLimit-Reset"
                  (FormatInt (Time.Unix (clock.atCreate + window) * 1000)),
                Effect.setHeader "X-RateLimit-Limit" (FormatInt L),
                Effect.next ],
            panic := none } ∧
      ((Ratelimiter.inMemory L window keyFunc checkIfGlobalFunc).Middleware
          clock h p req).2.2.data (keyFunc req) = some (some a) := by
  have hwrap : wrapInt32 L = L := wrapInt32_of_isInt32 (by unfold isInt32; omega)
  have hne : ¬ (L = 0) := by omega
  simp [Ratelimiter.Middleware, Ratelimiter.lookup, Ratelimiter.inMemory, inmemory,
    Provider.Get_present h p _ a hk, NewRatelimit, Heap.alloc, Heap.store, Heap.load,
    Provider.Put, Provider.assign, Ratelimiter.respond, Ratelimit.new, Ratelimit.Exceeded,
    hwrap, hne]

/-- C18, at limit 3 on a provider where the key "k" holds a state with no
request left: the run is allowed with `X-RateLimit-Remaining` "3". -/
theorem Middleware_present_key_never_denied_witness :
    ((Ratelimiter.inMemory 3 Hour (fun _ => "k") (fun _ => true)).Middleware
          { atCreate := 0, atExceeded := 1, atRetry := 2 }
          exhaustedState.1 exhaustedState.2 (Request.plain "10.0.0.1:80")).1
        = { effects :=
              [ Effect.setHeader "X-RateLimit-Remaining" (FormatInt 3),
                Effect.setHeader "X-RateLimit-Global" (if true then "true" else "false"),
                Effect.setHeader "X-RateLimit-Reset" (FormatInt (Time.Unix (0 + Hour) * 1000)),
                Effect.setHeader "X-RateLimit-Limit" (FormatInt 3),
                Effect.next ],
            panic := none } ∧
      ((Ratelimiter.inMemory 3 Hour (fun _ => "k") (fun _ => true)).Middleware
          { atCreate := 0, atExceeded := 1, atRetry := 2 }
          exhaustedState.1 exhaustedState.2 (Request.plain "10.0.0.1:80")).2.2.data "k"
        = some (some 0) :=
  Middleware_present_key_never_denied 3 Hour (fun _ => "k") (fun _ => true)
    { atCreate := 0, atExceeded := 1, atRetry := 2 } exhaustedState.1 exhaustedState.2
    (Request.plain "10.0.0.1:80") 0 (by decide) (by decide) (by decide)

/-! ## Keys, pointers and nil entries -/

/-- C19. What each operation on key `k` leaves alone, and where `Get` does
not. For distinct keys `k` and `k'`, `Put(k, v)`, `Reset(k)` and `Get(k)` leave
the entry of `k'` in the map as it was, and `Put` and `Reset` leave the heap
as it was. `Get(k)` writes to the object its pointer designates: when "a" and
"b" hold the same pointer to a state with 5 requests left, `Get("a")` leaves
the state stored under "b" with 4. -/
theorem Get_changes_state_of_sharing_key :
    (∀ (h : Heap) (p : Provider) (k k' : String) (v : Ptr), k' ≠ k →
        (inmemory.Put h p k v).2.2.data k' = p.data k' ∧
          (inmemory.Put h p k v).2.1 = h ∧
          (inmemory.Reset h p k).2.2.data k' = p.data k' ∧
          (inmemory.Reset h p k).2.1 = h ∧
          (inmemory.Get h p k).2.2.data k' = p.data k') ∧
      sharedState.2.data "b" = some (some 0) ∧
      (sharedState.1.load 0).Remaining = 5 ∧
      (inmemory.Get sharedState.1 sharedState.2 "a").2.2.data "b" = some (some 0) ∧
      ((inmemory.Get sharedState.1 sharedState.2 "a").2.1.load 0).Remaining = 4 := by
  refine ⟨?_, by decide, by decide, by decide, by decide⟩
  intro h p k k' v hne
  refine ⟨?_, ?_, ?_, ?_, ?_⟩
  · cases hk : p.data k <;> simp [inmemory, Provider.Put, hk, Provider.assign, hne]
  · simp [inmemory]
  · cases hk : p.find k <;> simp [inmemory, Provider.Reset, hk, Provider.delete, hne]
  · simp [inmemory]
  · cases hk : p.find k <;> simp [inmemory, Provider.Get, hk, Provider.assign, hne]

/-- C20. A key stored with a nil pointer is not freed by `Reset`. On a new
provider `Put("k", nil)` succeeds; `Reset("k")` then finds the nil value,
returns `(false, nil)` and deletes nothing; and a following `Put("k", rl)`
fails with the duplicate-key error. For every key that is absent or holds a
non-nil pointer, `Put` after `Reset` succeeds. -/
theorem Reset_keeps_nil_entry :
    (inmemory.Put Heap.empty NewProvider "k" none).1 = none ∧
      (inmemory.Reset Heap.empty (NewProvider.Put "k" none).2 "k").1 = (false, none) ∧
      (inmemory.Put Heap.empty
          (inmemory.Reset Heap.empty (NewProvider.Put "k" none).2 "k").2.2 "k" (some 0)).1
        = some "ratelimit with key k already exists" ∧
      (∀ (h : Heap) (p : Provider) (key : String) (value : Ptr), p.data key ≠ some none →
        (inmemory.Put h (inmemory.Reset h p key).2.2 key value).1 = none) := by
  refine ⟨by decide, by decide, by decide, ?_⟩
  intro h p key value hk
  cases hd : p.data key with
  | none => simp [inmemory, Provider.Reset, Provider.find, Provider.Put, hd]
  | some v =>
    cases v with
    | none => exact absurd hd hk
    | some a => simp [inmemory, Provider.Reset, Provider.find, Provider.Put, hd, Provider.delete]

/-! ## Requests for one fresh key -/

/-- C17. The serial schedule of concurrent requests, each run finishing
before the next starts: for every limit and every list of requests served
from a new in-memory provider, no run allows its request and none denies it,
since every run panics. With limit 3 and four requests for one key, 0 are
allowed and 0 denied, where the claim has 3 allowed and 1 denied. -/
theorem serial_requests_none_allowed_none_denied :
    (∀ (limit : Int) (window : Duration) (keyFunc : Request → String)
        (checkIfGlobalFunc : Request → Bool) (h : Heap) (reqs : List (Clock × Request)),
        ((Ratelimiter.inMemory limit window keyFunc checkIfGlobalFunc).serve h NewProvider
            reqs).1.length = reqs.length ∧
          ((Ratelimiter.inMemory limit window keyFunc checkIfGlobalFunc).serve h NewProvider
            reqs).1.countP Outcome.allowed = 0 ∧
          ((Ratelimiter.inMemory limit window keyFunc checkIfGlobalFunc).serve h NewProvider
            reqs).1.countP Outcome.denied = 0) ∧
      ((Ratelimiter.inMemory 3 Hour (fun _ => "k") (fun _ => true)).serve Heap.empty NewProvider
          (List.replicate 4
            ({ atCreate := 10, atExceeded := 10, atRetry := 10 },
              Request.plain "10.0.0.1:80"))).1.countP Outcome.allowed = 0 ∧
      ((Ratelimiter.inMemory 3 Hour (fun _ => "k") (fun _ => true)).serve Heap.empty NewProvider
          (List.replicate 4
            ({ atCreate := 10, atExceeded := 10, atRetry := 10 },
              Request.plain "10.0.0.1:80"))).1.countP Outcome.denied = 0 := by
  have general : ∀ (limit : Int) (window : Duration) (keyFunc : Request → String)
      (checkIfGlobalFunc : Request → Bool) (h : Heap) (reqs : List (Clock × Request)),
      ((Ratelimiter.inMemory limit window keyFunc checkIfGlobalFunc).serve h NewProvider
          reqs).1.length = reqs.length ∧
        ((Ratelimiter.inMemory limit window keyFunc checkIfGlobalFunc).serve h NewProvider
          reqs).1.countP Outcome.allowed = 0 ∧
        ((Ratelimiter.inMemory limit window keyFunc checkIfGlobalFunc).serve h NewProvider
          reqs).1.countP Outcome.denied = 0 := by
    intro limit window keyFunc checkIfGlobalFunc h reqs
    rw [Ratelimiter.serve_NewProvider]
    refine ⟨by simp, ?_, ?_⟩
    · rw [List.countP_eq_zero]
      intro o ho
      obtain ⟨_, _, rfl⟩ := List.mem_map.mp ho
      simp [Outcome.allowed]
    · rw [List.countP_eq_zero]
      intro o ho
      obtain ⟨_, _, rfl⟩ := List.mem_map.mp ho
      simp [Outcome.denied]
  exact ⟨general, (general 3 Hour _ _ Heap.empty _).2.1, (general 3 Hour _ _ Heap.empty _).2.2⟩

end ChiRatelimit
